import Mathlib

/-!
Verification of the core analysis services of the Intelligent-Music-Map
repository (TransformersAIService, MusicKnowledgeBase).  Each definition is a
shallow embedding of the corresponding TypeScript function: JS numbers are
modelled as real numbers (exact rationals where the code only ever produces
rationals), JS arrays as lists, JS `Map`s as association lists, and the
stable ECMAScript `Array.prototype.sort` as a stable insertion sort.
-/

namespace IMM

/-! ## Definitions: the shallow embedding of the source -/

/-- Sum of squares of a vector, as computed by
`reduce((sum, val) => sum + val * val, 0)` in the source. -/
def sumSq (l : List ℝ) : ℝ := (l.map (fun x => x * x)).sum

/-- Dot product accumulated by the index loop of `cosineSimilarity`
(the loop runs under a guard that both vectors have the same length). -/
def dotProd (v1 v2 : List ℝ) : ℝ := ((v1.zip v2).map (fun p => p.1 * p.2)).sum

/-- UTF-16 code unit of a character (`charCodeAt` in the source); for the
basic-plane characters handled by this code base it is the code point. -/
def charCode (c : Char) : ℕ := c.toNat

/-- Worker for `jsSplitWS`.  The boolean records whether the previous character
belonged to a whitespace run (so that a maximal run produces one single cut),
and the accumulator holds the current piece in reverse. -/
def jsSplitAux : List Char → Bool → List Char → List (List Char)
  | [], _, cur => [cur.reverse]
  | c :: cs, inWS, cur =>
    if c.isWhitespace then
      if inWS then jsSplitAux cs true []
      else cur.reverse :: jsSplitAux cs true []
    else jsSplitAux cs false (c :: cur)

/-- JS `String.prototype.split(/\s+/)`: the pieces between maximal runs of
whitespace, keeping the empty pieces produced at the two boundaries
(so a leading or trailing run contributes an empty word, exactly as in JS). -/
def jsSplitWS (l : List Char) : List (List Char) := jsSplitAux l false []

/-- `text.toLowerCase()` followed by viewing the string as its character list. -/
def jsLower (t : String) : List Char := t.data.map Char.toLower

/-- One `embedding[position] += v` array write (`List.set` models the
in-place update; positions produced by the code are always < 384). -/
def addAt (l : List ℚ) (pos : ℕ) (v : ℚ) : List ℚ := l.set pos (l.getD pos 0 + v)

/-- Inner loop of the fallback embedding: for each character of `word` at
position `i` with code `c`, accumulate `1 / (i + 1)` into dimension
`(c * (idx + 1)) % 384`. -/
def accumWord (emb : List ℚ) (idx : ℕ) (word : List Char) : List ℚ :=
  word.enum.foldl
    (fun e ic => addAt e ((charCode ic.2 * (idx + 1)) % 384) (1 / (ic.1 + 1))) emb

/-- The raw (pre-normalization) 384-dimensional accumulation of
`generateFallbackEmbedding` / `generateSimpleEmbedding`, computed exactly
over the rationals. -/
def accumList (t : String) : List ℚ :=
  (jsSplitWS (jsLower t)).enum.foldl (fun e iw => accumWord e iw.1 iw.2)
    (List.replicate 384 0)

/-- View of the exact rational accumulation as a real vector. -/
def castVec (l : List ℚ) : List ℝ := l.map (fun q : ℚ => (q : ℝ))

/-- `TransformersAIService.generateFallbackEmbedding`: accumulate the
bag-of-characters weights, then L2-normalize unless the magnitude is zero. -/
noncomputable def generateFallbackEmbedding (t : String) : List ℝ :=
  let e : List ℝ := castVec (accumList t)
  let magnitude := Real.sqrt (sumSq e)
  if 0 < magnitude then e.map (fun x => x / magnitude) else e

/-- `MusicKnowledgeBase.generateSimpleEmbedding`: the source text is
line-for-line identical to `generateFallbackEmbedding`. -/
noncomputable def generateSimpleEmbedding : String → List ℝ :=
  generateFallbackEmbedding

/-- `cosineSimilarity(vec1, vec2)`: 0 on length mismatch, otherwise
`dot / (sqrt(norm1) * sqrt(norm2))`, with 0 when the magnitude is not
positive.  Both classes carry a line-for-line identical copy. -/
noncomputable def cosineSimilarity (v1 v2 : List ℝ) : ℝ :=
  if v1.length ≠ v2.length then 0
  else
    let magnitude := Real.sqrt (sumSq v1) * Real.sqrt (sumSq v2)
    if 0 < magnitude then dotProd v1 v2 / magnitude else 0

/-- Stable insertion step: a later element is placed after every earlier
element whose key is not strictly smaller.  ECMAScript requires
`Array.prototype.sort` to be stable, and every comparator in this code base
is `(a, b) => key(b) - key(a)` (a descending sort on a numeric key), so the
sort's result is exactly the stable descending reordering modelled here. -/
noncomputable def insertDesc {α : Type} (key : α → ℝ) (x : α) : List α → List α
  | [] => [x]
  | y :: ys => if key y ≤ key x then x :: y :: ys else y :: insertDesc key x ys

/-- The stable descending sort by `key` (model of the stable
`Array.prototype.sort` with a descending numeric comparator). -/
noncomputable def sortDesc {α : Type} (key : α → ℝ) : List α → List α
  | [] => []
  | x :: xs => insertDesc key x (sortDesc key xs)

/-- The `features` record of a `TheoryRule`. -/
structure RuleFeatures where
  chordProgression : Option (List ℤ) := none
  melodyContour : Option String := none
  rhythmPattern : Option String := none

/-- A music-theory catalog entry; `embedding` is absent until computed and
`similarity` is only ever attached to the copies returned by a search. -/
structure TheoryRule where
  id : String
  name : String
  description : String
  category : String
  features : RuleFeatures
  applicablePeriods : List String
  confidence : ℝ
  embedding : Option (List ℝ) := none
  similarity : Option ℝ := none

/-- The knowledge-base state: its rule catalog. -/
structure MusicKnowledgeBase where
  rules : List TheoryRule

/-- `MusicKnowledgeBase.searchRules`: score every rule by cosine similarity
against the query (an absent embedding is scored against `[]`), sort the
scored pairs descending with the stable array sort, take the first `topK`,
and return copies annotated with their similarity. -/
noncomputable def searchRules (kb : MusicKnowledgeBase) (queryEmbedding : List ℝ)
    (topK : ℕ) : List TheoryRule :=
  let scored := kb.rules.map
    (fun rule => (rule, cosineSimilarity queryEmbedding (rule.embedding.getD [])))
  let sorted := sortDesc (fun item => item.2) scored
  (sorted.take topK).map (fun item => { item.1 with similarity := some item.2 })

/-- State-passing form of `searchRules`: the method body contains no
assignment to `this.rules` or to any stored rule, so the state component is
returned unchanged. -/
noncomputable def searchRulesSt (kb : MusicKnowledgeBase) (q : List ℝ) (topK : ℕ) :
    List TheoryRule × MusicKnowledgeBase :=
  (searchRules kb q topK, kb)

/-- The catalog in insertion order, annotated with computed similarities:
the reference order for the tie-breaking part of the search contract. -/
noncomputable def annotatedCatalog (kb : MusicKnowledgeBase) (q : List ℝ) : List TheoryRule :=
  kb.rules.map
    (fun rule => { rule with similarity := some (cosineSimilarity q (rule.embedding.getD [])) })

/-- The first catalog entry of `createTheoryRules`, used as a concrete
knowledge-base sample for witnesses. -/
def ruleAuthentic : TheoryRule :=
  { id := "cadence_authentic"
    name := "Authentic Cadence"
    description := "Dominant chord resolving to tonic chord (V-I), melody descends to tonic note, creates strong sense of closure"
    category := "cadence"
    features := { chordProgression := some [5, 1], melodyContour := some "descending" }
    applicablePeriods := ["baroque", "classical", "romantic", "modern"]
    confidence := 0.95 }

/-- A one-rule knowledge base for concrete witnesses and counterexamples;
as in the catalog before `initialize()`, the rule carries no embedding yet. -/
def kbSample : MusicKnowledgeBase := ⟨[ruleAuthentic]⟩

/-- The weight `rule.similarity || 0.5` of one rule in `calculateConfidence`.
JS `||` yields the right operand whenever the left one is falsy, i.e. when
`similarity` is `undefined` or the number 0. -/
noncomputable def simWeight (s : Option ℝ) : ℝ :=
  match s with
  | none => 0.5
  | some v => if v = 0 then 0.5 else v

/-- `TransformersAIService.calculateConfidence`: 0.5 on an empty rule list,
otherwise `0.5 + 0.5 * (average rule weight)`. -/
noncomputable def calculateConfidence (rules : List TheoryRule) : ℝ :=
  if rules.length = 0 then 0.5
  else
    let totalWeight := (rules.map (fun rule => simWeight rule.similarity)).sum
    let avgSimilarity := totalWeight / rules.length
    0.5 + avgSimilarity * 0.5

/-- Modelled from the spec's words for comparison with the code:
"confidence = 0.5 + 0.5 * mean(similarity of returned rules)", empty result
set yielding the neutral 0.5. -/
noncomputable def specConfidence (rules : List TheoryRule) : ℝ :=
  if rules.length = 0 then 0.5
  else 0.5 + 0.5 * ((rules.map (fun r => r.similarity.getD 0)).sum / rules.length)

/-- `retrieveRelevantRules` on the fallback embedding path (the primary
encoder is an external model; without it `generateEmbedding(text)` is
exactly `generateFallbackEmbedding(text)`), feeding the top-5 query of the
knowledge base. -/
noncomputable def retrieveRelevantRules (kb : MusicKnowledgeBase) (query : String) :
    List TheoryRule :=
  searchRules kb (generateFallbackEmbedding query) 5

/-- A note of the parsed score: pitch text plus duration. -/
structure Note where
  pitch : String
  duration : ℚ

/-- A measure: an ordered list of notes. -/
structure Measure where
  notes : List Note

/-- The parsed score object. -/
structure MusicXMLData where
  measures : List Measure

/-- A detected music structure.  `notes` is optional because the code guards
every access with `structure.notes || []`. -/
structure MusicStructure where
  id : String
  level : String
  startMeasure : ℤ
  endMeasure : ℤ
  notes : Option (List Note) := none
  confidence : ℝ := 0

/-- A typed, scored relationship between two structures. -/
structure StructureRelationship where
  id1 : String
  id2 : String
  type : String
  similarity : ℝ
  description : String

/-- The note-name lookup table `{C:0, D:2, E:4, F:5, G:7, A:9, B:11}` of
`pitchToNumber`; the regular expression guarantees the argument is one of
the seven letters, so the default branch is unreachable. -/
def noteMapFn (c : Char) : ℤ :=
  if c = 'C' then 0 else if c = 'D' then 2 else if c = 'E' then 4
  else if c = 'F' then 5 else if c = 'G' then 7 else if c = 'A' then 9
  else if c = 'B' then 11 else 0

/-- Decimal value of a digit string (`parseInt`). -/
def natOfDigits (l : List Char) : ℕ := l.foldl (fun n c => 10 * n + (c.toNat - 48)) 0

/-- The regular expression match of `pitchToNumber`:
matching the pitch string against the anchored pattern letter `[A-G]`,
optional accidental `(#|b)?`, optional octave digits `(\d+)?`.  Returns the
three captures on success, `none` when the string does not match. -/
def pitchMatch (s : String) : Option (Char × Option Char × Option ℕ) :=
  match s.data with
  | [] => none
  | c :: rest =>
    if 'A' ≤ c ∧ c ≤ 'G' then
      let split : Option Char × List Char :=
        match rest with
        | a :: t => if a = '#' ∨ a = 'b' then (some a, t) else (none, rest)
        | [] => (none, [])
      if split.2 = [] then some (c, split.1, none)
      else if split.2.all Char.isDigit then some (c, split.1, some (natOfDigits split.2))
      else none
    else none

/-- `TransformersAIService.pitchToNumber`: 60 when the pitch string does not
match; otherwise the note value plus 12 times the octave (default 4),
adjusted by the accidental. -/
def pitchToNumber (pitch : String) : ℤ :=
  match pitchMatch pitch with
  | none => 60
  | some (note, accidental, octave) =>
    noteMapFn note + (octave.getD 4 : ℤ) * 12 +
      (if accidental = some '#' then 1 else 0) - (if accidental = some 'b' then 1 else 0)

/-- `TransformersAIService.detectContour`: majority vote of the signs of the
consecutive pitch steps, with a factor-1.5 dominance threshold. -/
def detectContour (pitches : List String) : String :=
  if pitches.length < 2 then "stable"
  else
    let pitchNumbers := pitches.map pitchToNumber
    let steps := pitchNumbers.zip pitchNumbers.tail
    let ascending := (steps.filter (fun p => decide (p.1 < p.2))).length
    let descending := (steps.filter (fun p => decide (p.2 < p.1))).length
    if (descending : ℚ) * 1.5 < (ascending : ℚ) then "ascending"
    else if (ascending : ℚ) * 1.5 < (descending : ℚ) then "descending"
    else "wave"

/-- `pitches.slice(i, i + patternLen).join(',')` in `detectRepetition`. -/
def sliceJoin (pitches : List String) (i patternLen : ℕ) : String :=
  String.intercalate "," ((pitches.drop i).take patternLen)

/-- `TransformersAIService.detectRepetition`: does some 2-, 3- or 4-note
prefix pattern recur at least twice at stride `patternLen`? -/
def detectRepetition (pitches : List String) : Bool :=
  if pitches.length < 4 then false
  else
    [2, 3, 4].any fun patternLen =>
      let pattern := String.intercalate "," (pitches.take patternLen)
      let starts := (List.range pitches.length).filter
        (fun i => decide (i % patternLen = 0 ∧ i + patternLen ≤ pitches.length))
      2 ≤ (starts.filter (fun i => sliceJoin pitches i patternLen == pattern)).length

/-- JS `x || 1` applied to the mean duration: NaN (empty list, 0/0 = 0 in the
rational model) and 0 are both falsy, so a single zero test covers both. -/
def jsOrOne (q : ℚ) : ℚ := if q = 0 then 1 else q

/-- JS `Array.prototype.slice(s, e)` with possibly negative clamped bounds
(used with the 1-indexed measure bounds of a structure). -/
def jsSliceInt {α : Type} (l : List α) (s e : ℤ) : List α :=
  let len : ℤ := l.length
  let start := if s < 0 then max (len + s) 0 else min s len
  let stop := if e < 0 then max (len + e) 0 else min e len
  (l.drop start.toNat).take (stop - start).toNat

/-- The coarse tempo bucket of `generateStructureDescription`. -/
def tempoBucket (avgDuration : ℚ) : String :=
  if avgDuration < 0.5 then "fast" else if 1.5 < avgDuration then "slow" else "moderate"

/-- `TransformersAIService.generateStructureDescription`: a natural-language
sentence built from the measure span, tempo bucket, contour, and
self-repetition flag. -/
def generateStructureDescription (st : MusicStructure) (musicData : MusicXMLData) : String :=
  let measures := jsSliceInt musicData.measures (st.startMeasure - 1) st.endMeasure
  let notes := (measures.map (fun m => m.notes)).flatten
  let pitches := notes.map (fun n => n.pitch)
  let durations := notes.map (fun n => n.duration)
  let avgDuration := jsOrOne (durations.sum / (durations.length : ℚ))
  let tempo := tempoBucket avgDuration
  let hasRepetition := detectRepetition pitches
  let contour := detectContour pitches
  "Musical phrase from measure " ++ toString st.startMeasure ++ " to " ++
    toString st.endMeasure ++ ", " ++ tempo ++ " tempo, " ++ contour ++ " melodic contour" ++
    (if hasRepetition then ", with repetitive patterns" else "")

/-- `TransformersAIService.extractStructureFeatures`: the
(energy, brightness, tension) triple.  Division is the total rational
division (the code divides by the measure span, which is positive for every
well-formed structure). -/
def extractStructureFeatures (st : MusicStructure) : ℚ × ℚ × ℚ :=
  let notes := st.notes.getD []
  let measureCount : ℤ := st.endMeasure - st.startMeasure + 1
  let noteDensity : ℚ := (notes.length : ℚ) / (measureCount : ℚ)
  let energy := min 1 (noteDensity / 10)
  let pitches := notes.map (fun n => pitchToNumber n.pitch)
  let avgPitch : ℚ :=
    if 0 < pitches.length then ((pitches.sum : ℤ) : ℚ) / (pitches.length : ℚ) else 60
  let brightness := min 1 (max 0 ((avgPitch - 48) / 36))
  let tension :=
    if 1 < pitches.length then
      let intervals := (pitches.zip pitches.tail).map (fun p => |p.2 - p.1|)
      min 1 (((intervals.sum : ℤ) : ℚ) / (intervals.length : ℚ) / 12)
    else (0.5 : ℚ)
  (energy, brightness, tension)

/-- The emotion triple produced by `inferEmotion`. -/
structure EmotionFeatures where
  speed : String
  intensity : String
  tension : String

/-- Session preferences: weight maps (JS `Map<string, number>`) per token
kind, modelled as association lists with unique keys. -/
structure UserPreferences where
  shapePreferences : List (String × ℝ)
  animationPreferences : List (String × ℝ)
  colorPreferences : List (String × ℝ)

/-- `prefs.get(a) || 0`: the stored weight, or 0 when the token is absent
(a stored weight of 0 is falsy and also yields 0). -/
noncomputable def prefWeight (prefs : List (String × ℝ)) (a : String) : ℝ :=
  match prefs.lookup a with
  | some w => if w = 0 then 0 else w
  | none => 0

/-- `TransformersAIService.getPreferredItems`: identity on an empty map,
otherwise the stable descending sort of the candidate list by current
weight. -/
noncomputable def getPreferredItems (prefs : List (String × ℝ)) (items : List String) :
    List String :=
  if prefs.length = 0 then items else sortDesc (prefWeight prefs) items

/-- `TransformersAIService.getColorsForEmotion`: fixed palette lookup. -/
def getColorsForEmotion (emotion : EmotionFeatures) : List String :=
  if emotion.speed = "fast" ∧ emotion.intensity = "strong" then
    ["#FF6B6B", "#FF8E53", "#FFA600", "#FF4757", "#FF6348"]
  else if emotion.speed = "slow" ∧ emotion.intensity = "weak" then
    ["#4ECDC4", "#45B7D1", "#96CEB4", "#74B9FF", "#81ECEC"]
  else if emotion.tension = "tense" then
    ["#A04668", "#D84797", "#8E44AD", "#9B59B6", "#6C5CE7"]
  else ["#3498DB", "#2ECC71", "#F39C12", "#1ABC9C", "#E74C3C"]

/-- The fixed shape candidate list. -/
def shapesList : List String :=
  ["circle", "square", "triangle", "star", "wave", "diamond", "hexagon"]

/-- The fixed animation-kind candidate list. -/
def animationsList : List String := ["flash", "rotate", "bounce", "scale", "slide"]

/-- The per-scheme layout list. -/
def layoutsList : List String := ["horizontal", "circular", "vertical", "grid", "horizontal"]

/-- One element of a visual scheme (animation record inlined). -/
structure VisualElement where
  id : String
  type : String
  color : String
  size : ℕ
  animationType : String
  animationDuration : ℕ
  animationEasing : String

/-- A recommended visual scheme. -/
structure VisualScheme where
  id : String
  elements : List VisualElement
  layout : String
  confidence : ℝ

/-- `TransformersAIService.recommendVisuals`.  The instance state
`this.lastAnalysis` enters as the optional relationship list; `emotion`,
`structureLevel`, optional `preferences` and optional `structureId` are the
call arguments. -/
noncomputable def recommendVisuals (lastAnalysis : Option (List StructureRelationship))
    (emotion : EmotionFeatures) (structureLevel : String)
    (preferences : Option UserPreferences) (structureId : Option String) :
    List VisualScheme :=
  let elementCount := if structureLevel = "motive" then 1
    else if structureLevel = "phrase" ∨ structureLevel = "sub_phrase" then 3 else 3
  let colors := getColorsForEmotion emotion
  let structureType : String :=
    match lastAnalysis, structureId with
    | some relationships, some sid =>
      match relationships.find? (fun r => r.id1 == sid || r.id2 == sid) with
      | some rel => rel.type
      | none => "default"
    | _, _ => "default"
  let preferredShapes := match preferences with
    | some p => getPreferredItems p.shapePreferences shapesList
    | none => shapesList
  let preferredAnimations := match preferences with
    | some p => getPreferredItems p.animationPreferences animationsList
    | none => animationsList
  (List.range 5).map (fun i =>
    { id := "scheme_" ++ toString (i + 1)
      layout := layoutsList.getD i ""
      confidence := 0.95 - (i : ℝ) * 0.05
      elements := (List.range elementCount).map (fun j =>
        let shapeIndex :=
          if structureType = "repeat" then i % preferredShapes.length
          else if structureType = "contrast" then (i * 2 + j) % preferredShapes.length
          else if structureType = "similar" then (i + j) % preferredShapes.length
          else (i * 3 + j) % preferredShapes.length
        let colorIndex :=
          if structureType = "repeat" then j % colors.length
          else if structureType = "contrast" then (i + j * 2) % colors.length
          else if structureType = "similar" then (i + j) % colors.length
          else (j * 2) % colors.length
        { id := "element_" ++ toString (j + 1)
          type := preferredShapes.getD shapeIndex ""
          color := colors.getD colorIndex ""
          size := 60 + j * 10
          animationType := preferredAnimations.getD (j % preferredAnimations.length) ""
          animationDuration := 1000 + j * 200
          animationEasing := "ease-in-out" }) })

/-- The unordered-endpoint predicate of the `firstLast` lookup in
`identifyForm`. -/
def pairPred (s0 sl : MusicStructure) (r : StructureRelationship) : Bool :=
  (r.id1 == s0.id && r.id2 == sl.id) || (r.id2 == s0.id && r.id1 == sl.id)

/-- The `relationships.find(...)` call of the Ternary branch: the first
relationship connecting the first and the last structure (in either
orientation).  It is only evaluated under the guard `structureCount >= 3`,
so the head and last lookups are then defined. -/
def firstLastRel (relationships : List StructureRelationship)
    (structures : List MusicStructure) : Option StructureRelationship :=
  match structures.head?, structures.getLast? with
  | some s0, some sl => relationships.find? (pairPred s0 sl)
  | _, _ => none

/-- The structure-count-only fallback at the end of `identifyForm`. -/
def formByCount (n : ℕ) : String :=
  if n ≤ 2 then "Binary Form (AB)"
  else if n ≤ 4 then "Ternary Form (ABA)"
  else if n ≤ 6 then "Rondo Form"
  else "Through-composed Form"

/-- `TransformersAIService.identifyForm`: the priority-ordered decision list
over the relationship counts (run only when `this.lastAnalysis` exists),
falling back to the structure-count heuristic. -/
def identifyForm (lastAnalysis : Option (List StructureRelationship))
    (structures : List MusicStructure) : String :=
  let structureCount := structures.length
  match lastAnalysis with
  | some relationships =>
    let repeatCount := (relationships.filter (fun r => r.type == "repeat")).length
    let contrastCount := (relationships.filter (fun r => r.type == "contrast")).length
    if 2 ≤ repeatCount ∧ 3 ≤ structureCount ∧
        (firstLastRel relationships structures).any (fun r => r.type == "repeat") = true then
      "Ternary Form (ABA)"
    else if 3 ≤ repeatCount ∧ 5 ≤ structureCount then "Rondo Form (ABACA)"
    else if structureCount ≤ 4 ∧ 1 ≤ contrastCount then "Binary Form (AB)"
    else if 8 ≤ structureCount ∧ 2 ≤ repeatCount ∧ 2 ≤ contrastCount then "Sonata Form"
    else formByCount structureCount
  | none => formByCount structureCount

/-- A similarity group produced by `analyzeSimilarity`. -/
structure SimilarityGroup where
  groupId : String
  structureIds : List String
  similarityScore : ℝ
  commonFeatures : List String

/-- The group labels `['A', 'B', 'C', 'D', 'E']`. -/
def groupLabels : List String := ["A", "B", "C", "D", "E"]

/-- The filter for strong relationships in `groupByRelationships`:
`repeat`, or `similar` with similarity above 0.6. -/
noncomputable def isStrongRel (r : StructureRelationship) : Bool :=
  r.type == "repeat" || (r.type == "similar" && decide ((0.6 : ℝ) < r.similarity))

/-- One iteration of the `for (const rel of strongRelations)` loop: the state
is (groups, assigned set as a list, groupIndex). -/
noncomputable def groupStep (st : List SimilarityGroup × List String × ℕ)
    (rel : StructureRelationship) : List SimilarityGroup × List String × ℕ :=
  let groups := st.1
  let assigned := st.2.1
  let groupIndex := st.2.2
  if assigned.contains rel.id1 && assigned.contains rel.id2 then st
  else
    let groupId := groupLabels.getD (groupIndex % groupLabels.length) ""
    let step1 : List String × List String :=
      if assigned.contains rel.id1 then ([], assigned)
      else ([rel.id1], assigned ++ [rel.id1])
    let step2 : List String × List String :=
      if step1.2.contains rel.id2 then (step1.1, step1.2)
      else (step1.1 ++ [rel.id2], step1.2 ++ [rel.id2])
    if step2.1.length = 0 then (groups, step2.2, groupIndex)
    else
      (groups ++ [{ groupId := groupId
                    structureIds := step2.1
                    similarityScore := rel.similarity
                    commonFeatures := [rel.description] }],
       step2.2, groupIndex + 1)

/-- `TransformersAIService.groupByRelationships` (the `structures` argument
is unused by the source body as well). -/
noncomputable def groupByRelationships (structures : List MusicStructure)
    (relationships : List StructureRelationship) : List SimilarityGroup :=
  ((relationships.filter isStrongRel).foldl groupStep ([], [], 0)).1

/-- One iteration of the position-based fallback loop; the second state
component counts the `Math.random()` draws consumed so far, with `rand`
supplying the stream of drawn values. -/
noncomputable def gbpStep (rand : ℕ → ℝ) (structures : List MusicStructure) (groupSize : ℕ)
    (st : List SimilarityGroup × ℕ) (i : ℕ) : List SimilarityGroup × ℕ :=
  let startIdx := i * groupSize
  let endIdx := min (startIdx + groupSize + 1) structures.length
  let groupStructures := (structures.drop startIdx).take (endIdx - startIdx)
  if 2 ≤ groupStructures.length then
    (st.1 ++ [{ groupId := groupLabels.getD i ""
                structureIds := groupStructures.map (fun s => s.id)
                similarityScore := 0.75 + rand st.2 * 0.2
                commonFeatures := ["similar melodic contour", "parallel rhythmic pattern"] }],
     st.2 + 1)
  else st

/-- `TransformersAIService.groupByPosition`: three overlapping windows of
size `floor(n/3) + 1`, iterating `i` while `i < min(3, n / 2)` (real
division), each emitted group carrying the synthetic score
`0.75 + Math.random() * 0.2`. -/
noncomputable def groupByPosition (rand : ℕ → ℝ) (structures : List MusicStructure) :
    List SimilarityGroup :=
  let groupSize := structures.length / 3
  let iters := (List.range 3).filter
    (fun i : ℕ => decide ((i : ℚ) < (structures.length : ℚ) / 2))
  (iters.foldl (gbpStep rand structures groupSize) ([], 0)).1

/-- `TransformersAIService.analyzeSimilarity`: empty below 4 structures,
relationship-based grouping when `this.lastAnalysis` exists, otherwise the
position-based fallback. -/
noncomputable def analyzeSimilarity (rand : ℕ → ℝ)
    (lastAnalysis : Option (List StructureRelationship))
    (structures : List MusicStructure) : List SimilarityGroup :=
  if structures.length < 4 then []
  else
    match lastAnalysis with
    | some relationships => groupByRelationships structures relationships
    | none => groupByPosition rand structures

/-- The four 2-measure structures of the end-to-end scenario. -/
def structsC5 : List MusicStructure :=
  [{ id := "s1", level := "phrase", startMeasure := 1, endMeasure := 2 },
   { id := "s2", level := "phrase", startMeasure := 3, endMeasure := 4 },
   { id := "s3", level := "phrase", startMeasure := 5, endMeasure := 6 },
   { id := "s4", level := "phrase", startMeasure := 7, endMeasure := 8 }]

/-- The relationship set of the end-to-end scenario. -/
def relsC5 : List StructureRelationship :=
  [{ id1 := "s1", id2 := "s2", type := "repeat", similarity := 0.9, description := "d12" },
   { id1 := "s2", id2 := "s3", type := "contrast", similarity := 0.2, description := "d23" },
   { id1 := "s3", id2 := "s4", type := "repeat", similarity := 0.85, description := "d34" }]

/-- The first structure of the C6 counterexample. -/
def sC6a : MusicStructure := { id := "s1", level := "phrase", startMeasure := 1, endMeasure := 2 }

/-- The last structure of the C6 counterexample. -/
def sC6e : MusicStructure := { id := "s5", level := "phrase", startMeasure := 9, endMeasure := 10 }

/-- The full structure list of the C6 counterexample. -/
def structsC6 : List MusicStructure :=
  [sC6a,
   { id := "s2", level := "phrase", startMeasure := 3, endMeasure := 4 },
   { id := "s3", level := "phrase", startMeasure := 5, endMeasure := 6 },
   { id := "s4", level := "phrase", startMeasure := 7, endMeasure := 8 },
   sC6e]

/-- A similar-typed relationship between the first and last structure that
precedes the repeat-typed one in detection order. -/
def relC6sim : StructureRelationship :=
  { id1 := "s1", id2 := "s5", type := "similar", similarity := 0.65, description := "e15" }

/-- The repeat relationship between the first and last structure. -/
def relC6rep : StructureRelationship :=
  { id1 := "s1", id2 := "s5", type := "repeat", similarity := 0.9, description := "r15" }

/-- A second repeat relationship. -/
def relC6rep2 : StructureRelationship :=
  { id1 := "s1", id2 := "s2", type := "repeat", similarity := 0.8, description := "r12" }

/-- The relationship set of the C6 counterexample. -/
def relsC6 : List StructureRelationship := [relC6sim, relC6rep, relC6rep2]

/-- Three structures for the C6 witness. -/
def structsC6w : List MusicStructure :=
  [{ id := "s1", level := "phrase", startMeasure := 1, endMeasure := 2 },
   { id := "s2", level := "phrase", startMeasure := 3, endMeasure := 4 },
   { id := "s3", level := "phrase", startMeasure := 5, endMeasure := 6 }]

/-- Relationships for the C6 witness: two repeats, one of them linking the
first and last structure. -/
def relsC6w : List StructureRelationship :=
  [{ id1 := "s1", id2 := "s3", type := "repeat", similarity := 0.9, description := "r13" },
   { id1 := "s1", id2 := "s2", type := "repeat", similarity := 0.8, description := "r12" }]

/-- The projection of a similarity group that drops the synthetic random
score. -/
def groupShape (g : SimilarityGroup) : String × List String × List String :=
  (g.groupId, g.structureIds, g.commonFeatures)

/-- A minimal concrete structure for the C10 witness. -/
def st0 : MusicStructure := { id := "m1", level := "motive", startMeasure := 1, endMeasure := 1 }

/-- A minimal concrete score for the C10 witness. -/
def md0 : MusicXMLData := ⟨[]⟩

/-! ## Theorems: supporting lemmas and the claims -/

@[simp] theorem sumSq_nil : sumSq [] = 0 := rfl

@[simp] theorem sumSq_cons (x : ℝ) (l : List ℝ) : sumSq (x :: l) = x * x + sumSq l := rfl

theorem sumSq_nonneg (l : List ℝ) : 0 ≤ sumSq l := by
  induction l with
  | nil => simp
  | cons x xs ih =>
    have := mul_self_nonneg x
    simp only [sumSq_cons]
    linarith

theorem sumSq_pos {l : List ℝ} {x : ℝ} (hx : x ∈ l) (hne : x ≠ 0) : 0 < sumSq l := by
  induction l with
  | nil => cases hx
  | cons y ys ih =>
    rcases List.mem_cons.1 hx with rfl | hmem
    · have h1 : 0 < x * x := mul_self_pos.2 hne
      have h2 := sumSq_nonneg ys
      simp only [sumSq_cons]
      linarith
    · have h1 := ih hmem
      have h2 := mul_self_nonneg y
      simp only [sumSq_cons]
      linarith

theorem sumSq_map_div (l : List ℝ) (m : ℝ) :
    sumSq (l.map (fun x => x / m)) = sumSq l / (m * m) := by
  induction l with
  | nil => simp
  | cons x xs ih =>
    simp only [List.map_cons, sumSq_cons, ih]
    rcases eq_or_ne m 0 with rfl | hm
    · simp
    · field_simp

theorem sumSq_replicate_zero (n : ℕ) : sumSq (List.replicate n (0 : ℝ)) = 0 := by
  induction n with
  | zero => simp
  | succ k ih => simpa [List.replicate_succ] using ih

theorem length_addAt (l : List ℚ) (p : ℕ) (v : ℚ) : (addAt l p v).length = l.length := by
  simp [addAt]

theorem length_accumWord (emb : List ℚ) (idx : ℕ) (w : List Char) :
    (accumWord emb idx w).length = emb.length := by
  unfold accumWord
  generalize w.enum = ps
  induction ps generalizing emb with
  | nil => rfl
  | cons p ps ih => rw [List.foldl_cons, ih, length_addAt]

theorem length_foldl_accumWord (ws : List (ℕ × List Char)) (e : List ℚ) :
    (ws.foldl (fun e iw => accumWord e iw.1 iw.2) e).length = e.length := by
  induction ws generalizing e with
  | nil => rfl
  | cons w ws ih => simp [List.foldl_cons, ih, length_accumWord]

theorem length_accumList (t : String) : (accumList t).length = 384 := by
  unfold accumList
  rw [length_foldl_accumWord, List.length_replicate]

theorem sum_addAt (l : List ℚ) (p : ℕ) (v : ℚ) (hp : p < l.length) :
    (addAt l p v).sum = l.sum + v := by
  induction l generalizing p with
  | nil => simp at hp
  | cons x xs ih =>
    cases p with
    | zero =>
      simp only [addAt, List.set_cons_zero, List.getD_cons_zero, List.sum_cons]
      ring
    | succ q =>
      have hq : q < xs.length := by simpa using hp
      simp only [addAt, List.set_cons_succ, List.getD_cons_succ, List.sum_cons]
      rw [show xs.set q (xs.getD q 0 + v) = addAt xs q v from rfl, ih q hq]
      ring

theorem length_foldl_addAt (idx : ℕ) (ps : List (ℕ × Char)) (emb : List ℚ) :
    (ps.foldl (fun e ic => addAt e ((charCode ic.2 * (idx + 1)) % 384) (1 / (ic.1 + 1))) emb).length
      = emb.length := by
  induction ps generalizing emb with
  | nil => rfl
  | cons p ps ih => rw [List.foldl_cons, ih, length_addAt]

theorem sum_le_foldl_addAt (idx : ℕ) (ps : List (ℕ × Char)) (emb : List ℚ)
    (h : emb.length = 384) :
    emb.sum ≤
      (ps.foldl (fun e ic => addAt e ((charCode ic.2 * (idx + 1)) % 384) (1 / (ic.1 + 1))) emb).sum := by
  induction ps generalizing emb with
  | nil => simp
  | cons p ps ih =>
    rw [List.foldl_cons]
    have hpos : (0 : ℚ) < 1 / ((p.1 : ℚ) + 1) := by positivity
    have hlt : (charCode p.2 * (idx + 1)) % 384 < emb.length := by
      rw [h]; exact Nat.mod_lt _ (by norm_num)
    have hsum := sum_addAt emb ((charCode p.2 * (idx + 1)) % 384) (1 / ((p.1 : ℚ) + 1)) hlt
    have hlen : (addAt emb ((charCode p.2 * (idx + 1)) % 384) (1 / ((p.1 : ℚ) + 1))).length = 384 := by
      rw [length_addAt, h]
    have htail := ih _ hlen
    calc emb.sum ≤ emb.sum + 1 / ((p.1 : ℚ) + 1) := by linarith
    _ = (addAt emb ((charCode p.2 * (idx + 1)) % 384) (1 / ((p.1 : ℚ) + 1))).sum := hsum.symm
    _ ≤ _ := htail

theorem sum_le_accumWord (idx : ℕ) (w : List Char) (emb : List ℚ) (h : emb.length = 384) :
    emb.sum ≤ (accumWord emb idx w).sum :=
  sum_le_foldl_addAt idx w.enum emb h

theorem sum_lt_accumWord (idx : ℕ) (w : List Char) (emb : List ℚ) (h : emb.length = 384)
    (hw : w ≠ []) : emb.sum < (accumWord emb idx w).sum := by
  unfold accumWord
  have henum : w.enum ≠ [] := by
    intro hc
    exact hw (by simpa using congrArg List.length hc)
  obtain ⟨p, ps, hps⟩ := List.exists_cons_of_ne_nil henum
  rw [hps, List.foldl_cons]
  have hpos : (0 : ℚ) < 1 / ((p.1 : ℚ) + 1) := by positivity
  have hlt : (charCode p.2 * (idx + 1)) % 384 < emb.length := by
    rw [h]; exact Nat.mod_lt _ (by norm_num)
  have hsum := sum_addAt emb ((charCode p.2 * (idx + 1)) % 384) (1 / ((p.1 : ℚ) + 1)) hlt
  have hlen : (addAt emb ((charCode p.2 * (idx + 1)) % 384) (1 / ((p.1 : ℚ) + 1))).length = 384 := by
    rw [length_addAt, h]
  have htail := sum_le_foldl_addAt idx ps _ hlen
  calc emb.sum < emb.sum + 1 / ((p.1 : ℚ) + 1) := by linarith
  _ = (addAt emb ((charCode p.2 * (idx + 1)) % 384) (1 / ((p.1 : ℚ) + 1))).sum := hsum.symm
  _ ≤ _ := htail

theorem sum_le_foldl_accumWord (ws : List (ℕ × List Char)) (emb : List ℚ)
    (h : emb.length = 384) :
    emb.sum ≤ (ws.foldl (fun e iw => accumWord e iw.1 iw.2) emb).sum := by
  induction ws generalizing emb with
  | nil => simp
  | cons w ws ih =>
    rw [List.foldl_cons]
    have h1 := sum_le_accumWord w.1 w.2 emb h
    have hlen : (accumWord emb w.1 w.2).length = 384 := by rw [length_accumWord, h]
    exact le_trans h1 (ih _ hlen)

theorem sum_pos_accumList (t : String)
    (hw : ∃ w ∈ jsSplitWS (jsLower t), w ≠ []) : 0 < (accumList t).sum := by
  obtain ⟨w, hmem, hne⟩ := hw
  have : w ∈ (jsSplitWS (jsLower t)).enum.map Prod.snd := by
    rw [List.enum_map_snd]; exact hmem
  obtain ⟨p, hp, hpw⟩ := List.mem_map.1 this
  obtain ⟨l1, l2, hsplit⟩ := List.append_of_mem hp
  unfold accumList
  rw [hsplit]
  simp only [List.foldl_append, List.foldl_cons]
  have hrep : (List.replicate 384 (0 : ℚ)).sum = 0 := by
    rw [List.sum_replicate, smul_zero]
  have hlen1 : (l1.foldl (fun e iw => accumWord e iw.1 iw.2) (List.replicate 384 0)).length = 384 := by
    rw [length_foldl_accumWord, List.length_replicate]
  have h0 : (0 : ℚ) ≤ (l1.foldl (fun e iw => accumWord e iw.1 iw.2) (List.replicate 384 0)).sum := by
    have h := sum_le_foldl_accumWord l1 (List.replicate 384 0) (by rw [List.length_replicate])
    rw [hrep] at h
    exact h
  have h1 := sum_lt_accumWord p.1 p.2 _ hlen1 (by rw [hpw]; exact hne)
  have hlen2 : (accumWord (l1.foldl (fun e iw => accumWord e iw.1 iw.2) (List.replicate 384 0)) p.1 p.2).length = 384 := by
    rw [length_accumWord, hlen1]
  have h2 := sum_le_foldl_accumWord l2 _ hlen2
  linarith

theorem exists_nonempty_word_aux :
    ∀ (l : List Char) (b : Bool) (cur : List Char),
      ((∃ c ∈ l, c.isWhitespace = false) ∨ (b = false ∧ cur ≠ [])) →
      ∃ w ∈ jsSplitAux l b cur, w ≠ [] := by
  intro l
  induction l with
  | nil =>
    intro b cur h
    rcases h with ⟨c, hc, _⟩ | ⟨_, hcur⟩
    · cases hc
    · exact ⟨cur.reverse, by simp [jsSplitAux], by simpa using hcur⟩
  | cons c cs ih =>
    intro b cur h
    by_cases hws : c.isWhitespace
    · cases b with
      | true =>
        have hleft : ∃ x ∈ cs, x.isWhitespace = false := by
          rcases h with ⟨x, hx, hxw⟩ | ⟨hb, _⟩
          · rcases List.mem_cons.1 hx with rfl | hmem
            · rw [hws] at hxw; cases hxw
            · exact ⟨x, hmem, hxw⟩
          · cases hb
        obtain ⟨w, hw, hwne⟩ := ih true [] (Or.inl hleft)
        exact ⟨w, by simpa [jsSplitAux, hws] using hw, hwne⟩
      | false =>
        by_cases hcur : cur = []
        · have hleft : ∃ x ∈ cs, x.isWhitespace = false := by
            rcases h with ⟨x, hx, hxw⟩ | ⟨_, hcur2⟩
            · rcases List.mem_cons.1 hx with rfl | hmem
              · rw [hws] at hxw; cases hxw
              · exact ⟨x, hmem, hxw⟩
            · exact absurd hcur hcur2
          obtain ⟨w, hw, hwne⟩ := ih true [] (Or.inl hleft)
          refine ⟨w, ?_, hwne⟩
          simp only [jsSplitAux, hws, if_true]
          exact List.mem_cons_of_mem _ hw
        · refine ⟨cur.reverse, ?_, by simpa using hcur⟩
          simp only [jsSplitAux, hws, if_true]
          exact List.mem_cons_self _ _
    · obtain ⟨w, hw, hwne⟩ := ih false (c :: cur) (Or.inr ⟨rfl, List.cons_ne_nil c cur⟩)
      exact ⟨w, by simpa [jsSplitAux, hws] using hw, hwne⟩

/-- A text with at least one non-whitespace character accumulates a nonzero
vector (all contributions are strictly positive). -/
theorem accumList_ne_zero (t : String) (h : ∃ c ∈ jsLower t, c.isWhitespace = false) :
    accumList t ≠ List.replicate 384 0 := by
  have hpos := sum_pos_accumList t (exists_nonempty_word_aux (jsLower t) false [] (Or.inl h))
  intro hc
  rw [hc, List.sum_replicate, smul_zero] at hpos
  exact lt_irrefl 0 hpos

theorem cosineSimilarity_of_length_ne {v1 v2 : List ℝ} (h : v1.length ≠ v2.length) :
    cosineSimilarity v1 v2 = 0 := by
  unfold cosineSimilarity
  rw [if_pos h]

theorem cosineSimilarity_of_sumSq_eq_zero {v1 v2 : List ℝ}
    (h : sumSq v1 = 0 ∨ sumSq v2 = 0) : cosineSimilarity v1 v2 = 0 := by
  unfold cosineSimilarity
  by_cases hlen : v1.length ≠ v2.length
  · rw [if_pos hlen]
  · rw [if_neg hlen]
    have hmag : Real.sqrt (sumSq v1) * Real.sqrt (sumSq v2) = 0 := by
      rcases h with h | h
      · rw [h, Real.sqrt_zero, zero_mul]
      · rw [h, Real.sqrt_zero, mul_zero]
    simp only [hmag]
    rw [if_neg (lt_irrefl 0)]

/-- Unfolding equation of `generateFallbackEmbedding`. -/
theorem generateFallbackEmbedding_eq (t : String) :
    generateFallbackEmbedding t =
      if 0 < Real.sqrt (sumSq (castVec (accumList t))) then
        (castVec (accumList t)).map
          (fun x => x / Real.sqrt (sumSq (castVec (accumList t))))
      else castVec (accumList t) := rfl

theorem length_generateFallbackEmbedding (t : String) :
    (generateFallbackEmbedding t).length = 384 := by
  rw [generateFallbackEmbedding_eq]
  split
  · rw [List.length_map, castVec, List.length_map, length_accumList]
  · rw [castVec, List.length_map, length_accumList]

/-- C2 (amended): the fallback embedding is a pure function of the text
(`generateSimpleEmbedding` is the identical copy kept by the knowledge base);
it is 384-dimensional; a degenerate (empty or whitespace-only) text leaves
the zero accumulation vector unmodified; and a text with at least one
non-whitespace character yields a vector of L2 norm exactly 1. -/
theorem C2_fallback_embedding (t : String) :
    generateSimpleEmbedding t = generateFallbackEmbedding t ∧
    (generateFallbackEmbedding t).length = 384 ∧
    (accumList t = List.replicate 384 0 →
      generateFallbackEmbedding t = castVec (accumList t)) ∧
    ((∃ c ∈ jsLower t, c.isWhitespace = false) → sumSq (generateFallbackEmbedding t) = 1) := by
  refine ⟨rfl, length_generateFallbackEmbedding t, ?_, ?_⟩
  · intro h
    rw [generateFallbackEmbedding_eq]
    have he : castVec (accumList t) = List.replicate 384 (0 : ℝ) := by
      rw [h, castVec, List.map_replicate, Rat.cast_zero]
    rw [he, sumSq_replicate_zero, Real.sqrt_zero]
    rw [if_neg (lt_irrefl 0)]
  · intro h
    have hne := accumList_ne_zero t h
    have hq : ∃ q ∈ accumList t, q ≠ 0 := by
      by_contra hall
      push_neg at hall
      exact hne (List.eq_replicate_iff.2 ⟨length_accumList t, hall⟩)
    obtain ⟨q, hqmem, hqne⟩ := hq
    have hxmem : (q : ℝ) ∈ castVec (accumList t) := List.mem_map_of_mem _ hqmem
    have hxne : (q : ℝ) ≠ 0 := by exact_mod_cast hqne
    have hS : 0 < sumSq (castVec (accumList t)) := sumSq_pos hxmem hxne
    have hmag : 0 < Real.sqrt (sumSq (castVec (accumList t))) := Real.sqrt_pos.2 hS
    rw [generateFallbackEmbedding_eq, if_pos hmag, sumSq_map_div,
      Real.mul_self_sqrt (le_of_lt hS)]
    exact div_self (ne_of_gt hS)

/-- Witness for C2 at the text "cadence": the accumulation is nonzero and the
normalized fallback embedding has squared norm exactly 1. -/
theorem C2_fallback_embedding_witness :
    (∃ c ∈ jsLower "cadence", c.isWhitespace = false) ∧
      sumSq (generateFallbackEmbedding "cadence") = 1 :=
  ⟨by decide, (C2_fallback_embedding "cadence").2.2.2 (by decide)⟩

set_option maxRecDepth 10000 in
/-- Counterexample to C2 as stated: the one-character text " " is non-empty,
yet its fallback embedding is the zero vector, whose norm is 0, not within
1e-6 of 1. -/
theorem C2_nonempty_norm_counterexample :
    (" " : String) ≠ "" ∧
      ¬ |Real.sqrt (sumSq (generateFallbackEmbedding " ")) - 1| ≤ 1 / 1000000 := by
  constructor
  · decide
  · have hacc : accumList " " = List.replicate 384 0 := by decide
    have hcast : castVec (accumList " ") = List.replicate 384 (0 : ℝ) := by
      rw [hacc, castVec, List.map_replicate, Rat.cast_zero]
    have he : generateFallbackEmbedding " " = List.replicate 384 (0 : ℝ) := by
      rw [generateFallbackEmbedding_eq, hcast, sumSq_replicate_zero, Real.sqrt_zero]
      rw [if_neg (lt_irrefl 0)]
    rw [he, sumSq_replicate_zero, Real.sqrt_zero]
    norm_num

theorem mem_insertDesc {α : Type} (key : α → ℝ) {x a : α} {l : List α} :
    a ∈ insertDesc key x l ↔ a = x ∨ a ∈ l := by
  induction l with
  | nil => simp [insertDesc]
  | cons y ys ih =>
    rw [insertDesc]
    split
    · simp
    · simp only [List.mem_cons, ih]
      tauto

theorem mem_sortDesc {α : Type} (key : α → ℝ) {a : α} {l : List α} :
    a ∈ sortDesc key l ↔ a ∈ l := by
  induction l with
  | nil => simp [sortDesc]
  | cons x xs ih =>
    rw [sortDesc, mem_insertDesc key]
    simp [ih]

theorem length_insertDesc {α : Type} (key : α → ℝ) (x : α) (l : List α) :
    (insertDesc key x l).length = l.length + 1 := by
  induction l with
  | nil => rfl
  | cons y ys ih =>
    rw [insertDesc]
    split
    · simp
    · simp [ih]

theorem length_sortDesc {α : Type} (key : α → ℝ) (l : List α) :
    (sortDesc key l).length = l.length := by
  induction l with
  | nil => rfl
  | cons x xs ih =>
    rw [sortDesc, length_insertDesc, ih]
    rfl

theorem pairwise_insertDesc {α : Type} (key : α → ℝ) {x : α} {l : List α}
    (h : l.Pairwise (fun a b => key b ≤ key a)) :
    (insertDesc key x l).Pairwise (fun a b => key b ≤ key a) := by
  induction l with
  | nil => simp [insertDesc]
  | cons y ys ih =>
    rw [insertDesc]
    obtain ⟨hy, hys⟩ := List.pairwise_cons.1 h
    split
    · rename_i hxy
      refine List.Pairwise.cons ?_ h
      intro z hz
      rcases List.mem_cons.1 hz with rfl | hmem
      · exact hxy
      · exact le_trans (hy z hmem) hxy
    · rename_i hxy
      have hlt : key x < key y := not_le.1 hxy
      refine List.Pairwise.cons ?_ (ih hys)
      intro z hz
      rcases (mem_insertDesc key).1 hz with rfl | hmem
      · exact le_of_lt hlt
      · exact hy z hmem

theorem pairwise_sortDesc {α : Type} (key : α → ℝ) (l : List α) :
    (sortDesc key l).Pairwise (fun a b => key b ≤ key a) := by
  induction l with
  | nil => simp [sortDesc]
  | cons x xs ih => exact pairwise_insertDesc key ih

theorem filter_insertDesc {α : Type} (key : α → ℝ) (s : ℝ) (x : α) (l : List α) :
    (insertDesc key x l).filter (fun a => decide (key a = s)) =
      if key x = s then x :: l.filter (fun a => decide (key a = s))
      else l.filter (fun a => decide (key a = s)) := by
  induction l with
  | nil =>
    rw [insertDesc]
    by_cases hx : key x = s
    · rw [if_pos hx]
      simp [hx]
    · rw [if_neg hx]
      simp [hx]
  | cons y ys ih =>
    rw [insertDesc]
    split
    · rename_i hxy
      by_cases hx : key x = s
      · rw [if_pos hx]
        simp [hx]
      · rw [if_neg hx]
        simp [hx]
    · rename_i hxy
      have hlt : key x < key y := not_le.1 hxy
      by_cases hx : key x = s
      · have hy : ¬ key y = s := by
          intro hc
          rw [hx] at hlt
          rw [hc] at hlt
          exact lt_irrefl s hlt
        rw [if_pos hx, List.filter_cons, ih, if_pos hx, List.filter_cons]
        simp [hy]
      · rw [if_neg hx, List.filter_cons, ih, if_neg hx, List.filter_cons]

theorem filter_sortDesc {α : Type} (key : α → ℝ) (s : ℝ) (l : List α) :
    (sortDesc key l).filter (fun a => decide (key a = s)) =
      l.filter (fun a => decide (key a = s)) := by
  induction l with
  | nil => rfl
  | cons x xs ih =>
    rw [sortDesc, filter_insertDesc, ih]
    by_cases hx : key x = s
    · rw [if_pos hx]
      simp [hx]
    · rw [if_neg hx]
      simp [hx]

theorem mem_searchRules {kb : MusicKnowledgeBase} {q : List ℝ} {k : ℕ} {e : TheoryRule}
    (he : e ∈ searchRules kb q k) :
    ∃ r ∈ kb.rules,
      e = { r with similarity := some (cosineSimilarity q (r.embedding.getD [])) } := by
  unfold searchRules at he
  obtain ⟨p, hp, hpe⟩ := List.mem_map.1 he
  have hp2 : p ∈ sortDesc (fun item : TheoryRule × ℝ => item.2)
      (kb.rules.map (fun rule => (rule, cosineSimilarity q (rule.embedding.getD [])))) :=
    List.mem_of_mem_take hp
  have hp3 := (mem_sortDesc (fun item : TheoryRule × ℝ => item.2)).1 hp2
  obtain ⟨r, hr, hrp⟩ := List.mem_map.1 hp3
  refine ⟨r, hr, ?_⟩
  rw [← hpe, ← hrp]

theorem searchRules_eq (kb : MusicKnowledgeBase) (q : List ℝ) (k : ℕ) :
    searchRules kb q k =
      ((sortDesc (fun item : TheoryRule × ℝ => item.2)
        (kb.rules.map (fun rule => (rule, cosineSimilarity q (rule.embedding.getD []))))).take k).map
        (fun item => { item.1 with similarity := some item.2 }) := rfl

theorem annotatedCatalog_eq (kb : MusicKnowledgeBase) (q : List ℝ) :
    annotatedCatalog kb q =
      (kb.rules.map (fun rule => (rule, cosineSimilarity q (rule.embedding.getD [])))).map
        (fun item => { item.1 with similarity := some item.2 }) := by
  rw [List.map_map]
  rfl

/-- C1: for every query vector and every k, `searchRules` returns at most k
entries, whose attached similarities are in descending order, each entry
carrying the cosine similarity computed against its own embedding, and — for
every similarity value — entries of that value appear as a sublist of the
annotated catalog in insertion order (stability of the tie-break). -/
theorem C1_searchRules_ranking (kb : MusicKnowledgeBase) (q : List ℝ) (k : ℕ) :
    (searchRules kb q k).length ≤ k ∧
    ((searchRules kb q k).map (fun e => e.similarity.getD 0)).Pairwise (fun a b : ℝ => b ≤ a) ∧
    (∀ e ∈ searchRules kb q k,
      e.similarity = some (cosineSimilarity q (e.embedding.getD []))) ∧
    (∀ s : ℝ,
      List.Sublist
        ((searchRules kb q k).filter (fun e => decide (e.similarity = some s)))
        ((annotatedCatalog kb q).filter (fun e => decide (e.similarity = some s)))) := by
  refine ⟨?_, ?_, ?_, ?_⟩
  · rw [searchRules_eq, List.length_map, List.length_take]
    exact min_le_left _ _
  · rw [searchRules_eq, List.map_map]
    refine List.pairwise_map.2 ?_
    exact List.Pairwise.sublist (List.take_sublist _ _)
      (pairwise_sortDesc (fun item : TheoryRule × ℝ => item.2) _)
  · intro e he
    obtain ⟨r, _, rfl⟩ := mem_searchRules he
    rfl
  · intro s
    have key_lemma : ∀ (l : List (TheoryRule × ℝ)),
        (l.map (fun item => ({ item.1 with similarity := some item.2 } : TheoryRule))).filter
          (fun e => decide (e.similarity = some s)) =
        (l.filter (fun pr => decide (pr.2 = s))).map
          (fun item => { item.1 with similarity := some item.2 }) := by
      intro l
      rw [List.filter_map]
      congr 1
      apply List.filter_congr
      intro a _
      simp
    rw [searchRules_eq, annotatedCatalog_eq, key_lemma, key_lemma]
    refine List.Sublist.map _ ?_
    have h1 := List.Sublist.filter (fun pr : TheoryRule × ℝ => decide (pr.2 = s))
      (List.take_sublist k (sortDesc (fun item : TheoryRule × ℝ => item.2)
        (kb.rules.map (fun rule => (rule, cosineSimilarity q (rule.embedding.getD []))))))
    have h2 := filter_sortDesc (fun item : TheoryRule × ℝ => item.2) s
      (kb.rules.map (fun rule => (rule, cosineSimilarity q (rule.embedding.getD []))))
    exact h2 ▸ h1

/-- Witness for C1 at a concrete one-rule catalog and query. -/
theorem C1_searchRules_ranking_witness :
    (searchRules kbSample [(1 : ℝ)] 2).length ≤ 2 ∧
      ∀ e ∈ searchRules kbSample [(1 : ℝ)] 2,
        e.similarity = some (cosineSimilarity [(1 : ℝ)] (e.embedding.getD [])) :=
  ⟨(C1_searchRules_ranking kbSample [(1 : ℝ)] 2).1,
   (C1_searchRules_ranking kbSample [(1 : ℝ)] 2).2.2.1⟩

/-- C7: cosine similarity is total — it returns 0 on length mismatch and on
any zero-norm argument, and a zero-norm query makes every rule returned by
`searchRules` carry similarity 0. -/
theorem C7_cosine_total (v1 v2 q : List ℝ) (kb : MusicKnowledgeBase) (k : ℕ) :
    (v1.length ≠ v2.length → cosineSimilarity v1 v2 = 0) ∧
    ((sumSq v1 = 0 ∨ sumSq v2 = 0) → cosineSimilarity v1 v2 = 0) ∧
    (sumSq q = 0 → ∀ e ∈ searchRules kb q k, e.similarity = some 0) := by
  refine ⟨fun h => cosineSimilarity_of_length_ne h,
    fun h => cosineSimilarity_of_sumSq_eq_zero h, fun hq e he => ?_⟩
  obtain ⟨r, _, rfl⟩ := mem_searchRules he
  have hz : cosineSimilarity q (r.embedding.getD []) = 0 :=
    cosineSimilarity_of_sumSq_eq_zero (Or.inl hq)
  show some (cosineSimilarity q (r.embedding.getD [])) = some 0
  rw [hz]

/-- Witness for C7: a length-mismatched pair and a zero query against the
concrete sample catalog. -/
theorem C7_cosine_total_witness :
    cosineSimilarity [(0 : ℝ)] [] = 0 ∧
      ∀ e ∈ searchRules kbSample [(0 : ℝ), 0] 3, e.similarity = some 0 := by
  have h1 := (C7_cosine_total [(0 : ℝ)] [] [(0 : ℝ), 0] kbSample 3).1 (by decide)
  have h2 := (C7_cosine_total [(0 : ℝ)] [] [(0 : ℝ), 0] kbSample 3).2.2 (by simp [sumSq])
  exact ⟨h1, h2⟩

/-- C8: `searchRules` leaves the catalog state unchanged, and every returned
entry is a copy of a stored rule differing only in its transient
`similarity` annotation. -/
theorem C8_searchRules_frame (kb : MusicKnowledgeBase) (q : List ℝ) (k : ℕ) :
    (searchRulesSt kb q k).2 = kb ∧
    ∀ e ∈ (searchRulesSt kb q k).1, ∃ r ∈ kb.rules,
      e = { r with similarity := some (cosineSimilarity q (r.embedding.getD [])) } :=
  ⟨rfl, fun _ he => mem_searchRules he⟩

/-- Witness for C8 at the concrete sample catalog. -/
theorem C8_searchRules_frame_witness :
    (searchRulesSt kbSample [(1 : ℝ)] 5).2 = kbSample :=
  (C8_searchRules_frame kbSample [(1 : ℝ)] 5).1

theorem simWeight_none : simWeight none = 0.5 := rfl

theorem simWeight_some (v : ℝ) : simWeight (some v) = if v = 0 then 0.5 else v := rfl

/-- C3 (amended): with every returned similarity in [0, 1], the confidence
computed from the weights (a missing or exactly-zero similarity contributes
0.5, any other similarity contributes itself) lies in [0.5, 1.0] and equals
the neutral 0.5 exactly when no rules were returned. -/
theorem C3_confidence_bounds (rules : List TheoryRule)
    (h : ∀ r ∈ rules, ∀ v, r.similarity = some v → 0 ≤ v ∧ v ≤ 1) :
    0.5 ≤ calculateConfidence rules ∧ calculateConfidence rules ≤ 1 ∧
      (calculateConfidence rules = 0.5 ↔ rules = []) := by
  by_cases hne : rules.length = 0
  · have hnil : rules = [] := List.length_eq_zero.1 hne
    unfold calculateConfidence
    rw [if_pos hne]
    refine ⟨le_refl _, by norm_num, by simp [hnil]⟩
  · have hnil : rules ≠ [] := fun hc => hne (by rw [hc]; rfl)
    have hn : 0 < (rules.length : ℝ) := by
      have : 0 < rules.length := Nat.pos_of_ne_zero hne
      exact_mod_cast this
    have hw_pos : ∀ w ∈ rules.map (fun rule => simWeight rule.similarity), 0 < w := by
      intro w hw
      obtain ⟨r, hr, rfl⟩ := List.mem_map.1 hw
      cases hs : r.similarity with
      | none => rw [simWeight_none]; norm_num
      | some v =>
        rw [simWeight_some]
        by_cases hv : v = 0
        · rw [if_pos hv]; norm_num
        · rw [if_neg hv]
          exact lt_of_le_of_ne (h r hr v hs).1 (Ne.symm hv)
    have hw_le : ∀ w ∈ rules.map (fun rule => simWeight rule.similarity), w ≤ 1 := by
      intro w hw
      obtain ⟨r, hr, rfl⟩ := List.mem_map.1 hw
      cases hs : r.similarity with
      | none => rw [simWeight_none]; norm_num
      | some v =>
        rw [simWeight_some]
        by_cases hv : v = 0
        · rw [if_pos hv]; norm_num
        · rw [if_neg hv]
          exact (h r hr v hs).2
    have hmapne : rules.map (fun rule => simWeight rule.similarity) ≠ [] := by
      simpa using hnil
    have hsum_pos : 0 < (rules.map (fun rule => simWeight rule.similarity)).sum :=
      List.sum_pos _ hw_pos hmapne
    have hsum_le : (rules.map (fun rule => simWeight rule.similarity)).sum ≤ rules.length := by
      have := List.sum_le_card_nsmul (rules.map (fun rule => simWeight rule.similarity)) 1 hw_le
      simpa using this
    have hconf : calculateConfidence rules =
        0.5 + ((rules.map (fun rule => simWeight rule.similarity)).sum / rules.length) * 0.5 := by
      unfold calculateConfidence
      rw [if_neg hne]
    have havg_pos : 0 < (rules.map (fun rule => simWeight rule.similarity)).sum / rules.length :=
      div_pos hsum_pos hn
    have havg_le : (rules.map (fun rule => simWeight rule.similarity)).sum / rules.length ≤ 1 := by
      rw [div_le_one hn]
      exact hsum_le
    refine ⟨by rw [hconf]; linarith, by rw [hconf]; linarith, ?_⟩
    constructor
    · intro hc
      rw [hconf] at hc
      nlinarith
    · intro hc
      exact absurd hc hnil

/-- Witness for C3 at a one-rule list whose similarity is 0.8. -/
theorem C3_confidence_bounds_witness :
    0.5 ≤ calculateConfidence [{ ruleAuthentic with similarity := some 0.8 }] ∧
      calculateConfidence [{ ruleAuthentic with similarity := some 0.8 }] ≤ 1 ∧
      (calculateConfidence [{ ruleAuthentic with similarity := some 0.8 }] = 0.5 ↔
        [{ ruleAuthentic with similarity := some 0.8 }] = ([] : List TheoryRule)) :=
  C3_confidence_bounds [{ ruleAuthentic with similarity := some 0.8 }] (by
    intro r hr v hv
    rcases List.mem_singleton.1 hr with rfl
    rw [show ({ ruleAuthentic with similarity := some 0.8 } : TheoryRule).similarity
        = some 0.8 from rfl] at hv
    cases hv
    constructor <;> norm_num)

theorem searchRules_kbSample_noEmb (q : List ℝ) (hq : q.length = 384) :
    searchRules kbSample q 5 = [{ ruleAuthentic with similarity := some 0 }] := by
  have hz : cosineSimilarity q (ruleAuthentic.embedding.getD []) = 0 := by
    apply cosineSimilarity_of_length_ne
    rw [hq]
    decide
  rw [searchRules_eq]
  show ((sortDesc (fun item : TheoryRule × ℝ => item.2)
      [(ruleAuthentic, cosineSimilarity q (ruleAuthentic.embedding.getD []))]).take 5).map
      (fun item => { item.1 with similarity := some item.2 }) = _
  rw [sortDesc, sortDesc, insertDesc]
  rw [hz]
  rfl

/-- Counterexample to C3 as stated: with a stored rule lacking an embedding,
the query returns that rule with computed similarity 0, and the code's
confidence (0.75, because the falsy 0 similarity is replaced by the 0.5
default) differs from the spec formula 0.5 + 0.5 * mean(similarity) = 0.5. -/
theorem C3_confidence_counterexample :
    calculateConfidence (searchRules kbSample (generateFallbackEmbedding "cadence") 5) = 0.75 ∧
      specConfidence (searchRules kbSample (generateFallbackEmbedding "cadence") 5) = 0.5 ∧
      calculateConfidence (searchRules kbSample (generateFallbackEmbedding "cadence") 5) ≠
        specConfidence (searchRules kbSample (generateFallbackEmbedding "cadence") 5) := by
  have hlen : (generateFallbackEmbedding "cadence").length = 384 :=
    length_generateFallbackEmbedding "cadence"
  have hres := searchRules_kbSample_noEmb (generateFallbackEmbedding "cadence") hlen
  rw [hres]
  unfold calculateConfidence specConfidence
  norm_num
  unfold simWeight
  norm_num

/-- C4: `recommendVisuals` always returns exactly 5 schemes with confidences
exactly 0.95, 0.90, 0.85, 0.80, 0.75 in order, and each scheme has exactly
one element for the `motive` level and exactly three otherwise. -/
theorem C4_recommendVisuals_shape (lastAnalysis : Option (List StructureRelationship))
    (emotion : EmotionFeatures) (structureLevel : String)
    (preferences : Option UserPreferences) (structureId : Option String) :
    ((recommendVisuals lastAnalysis emotion structureLevel preferences structureId).map
        (fun s => s.confidence)) = [0.95, 0.90, 0.85, 0.80, 0.75] ∧
    ∀ s ∈ recommendVisuals lastAnalysis emotion structureLevel preferences structureId,
      s.elements.length = if structureLevel = "motive" then 1 else 3 := by
  constructor
  · show List.map (fun s => s.confidence)
      ((List.range 5).map (fun i =>
        ({ id := "scheme_" ++ toString (i + 1)
           layout := layoutsList.getD i ""
           confidence := 0.95 - (i : ℝ) * 0.05
           elements := _ } : VisualScheme))) = _
    rw [List.map_map]
    show [(0.95 : ℝ) - (0 : ℕ) * 0.05, 0.95 - (1 : ℕ) * 0.05, 0.95 - (2 : ℕ) * 0.05,
      0.95 - (3 : ℕ) * 0.05, 0.95 - (4 : ℕ) * 0.05] = _
    norm_num
  · intro s hs
    obtain ⟨i, _, rfl⟩ := List.mem_map.1 hs
    show ((List.range (if structureLevel = "motive" then 1
      else if structureLevel = "phrase" ∨ structureLevel = "sub_phrase" then 3 else 3)).map _).length = _
    rw [List.length_map, List.length_range]
    by_cases hm : structureLevel = "motive"
    · rw [if_pos hm, if_pos hm]
    · rw [if_neg hm, if_neg hm, ite_self]

/-- Witness for C4 at a concrete emotion and the motive level. -/
theorem C4_recommendVisuals_shape_witness :
    ((recommendVisuals none ⟨"fast", "strong", "neutral"⟩ "motive" none none).map
        (fun s => s.confidence)) = [0.95, 0.90, 0.85, 0.80, 0.75] :=
  (C4_recommendVisuals_shape none ⟨"fast", "strong", "neutral"⟩ "motive" none none).1

/-- C5: on the 4-structure scenario with relationships repeat(0.9),
contrast(0.2), repeat(0.85), `analyzeSimilarity` yields exactly the groups
A = (s1, s2) and B = (s3, s4), and `identifyForm` yields "Binary Form (AB)". -/
theorem C5_binary_scenario :
    ((analyzeSimilarity (fun _ => 0) (some relsC5) structsC5).map
        (fun g => (g.groupId, g.structureIds))) =
      [("A", ["s1", "s2"]), ("B", ["s3", "s4"])] ∧
    identifyForm (some relsC5) structsC5 = "Binary Form (AB)" :=
  ⟨rfl, rfl⟩

/-- Counterexample to C6 as stated: five structures, two repeat
relationships, and the first and last structures ARE mutually related by a
repeat relationship — but an earlier similar-typed relationship between the
same pair shadows it in `relationships.find(...)`, so `identifyForm`
returns "Rondo Form" instead of "Ternary Form (ABA)". -/
theorem C6_ternary_counterexample :
    structsC6.head? = some sC6a ∧ structsC6.getLast? = some sC6e ∧
    3 ≤ structsC6.length ∧
    2 ≤ (relsC6.filter (fun r => r.type == "repeat")).length ∧
    (∃ r ∈ relsC6, pairPred sC6a sC6e r = true ∧ r.type = "repeat") ∧
    identifyForm (some relsC6) structsC6 = "Rondo Form" ∧
    identifyForm (some relsC6) structsC6 ≠ "Ternary Form (ABA)" := by
  refine ⟨rfl, rfl, by decide, by decide, ?_, rfl, ?_⟩
  · exact ⟨relC6rep, List.mem_cons_of_mem _ (List.mem_cons_self _ _), rfl, rfl⟩
  · have hr : identifyForm (some relsC6) structsC6 = "Rondo Form" := rfl
    rw [hr]
    decide

/-- C6 (amended): whenever there are at least 3 structures, at least 2
repeat relationships, and the first relationship in detection order linking
the first and last structures is of type repeat, `identifyForm` returns the
Ternary label — regardless of every later branch condition (first match
wins). -/
theorem C6_ternary_first_match (relationships : List StructureRelationship)
    (structures : List MusicStructure)
    (h2 : 2 ≤ (relationships.filter (fun r => r.type == "repeat")).length)
    (h3 : 3 ≤ structures.length)
    (hfl : (firstLastRel relationships structures).any (fun r => r.type == "repeat") = true) :
    identifyForm (some relationships) structures = "Ternary Form (ABA)" := by
  simp only [identifyForm]
  rw [if_pos ⟨h2, h3, hfl⟩]

/-- Witness for the amended C6 on a concrete 3-structure input. -/
theorem C6_ternary_first_match_witness :
    identifyForm (some relsC6w) structsC6w = "Ternary Form (ABA)" :=
  C6_ternary_first_match relsC6w structsC6w (by decide) (by decide) rfl

theorem gbp_fold_shape (r1 r2 : ℕ → ℝ) (structures : List MusicStructure)
    (groupSize : ℕ) (l : List ℕ) :
    ∀ (g1 g2 : List SimilarityGroup) (k : ℕ),
      g1.map groupShape = g2.map groupShape →
      ((l.foldl (gbpStep r1 structures groupSize) (g1, k)).1.map groupShape =
        (l.foldl (gbpStep r2 structures groupSize) (g2, k)).1.map groupShape) := by
  induction l with
  | nil => intro g1 g2 k h; exact h
  | cons i l ih =>
    intro g1 g2 k h
    rw [List.foldl_cons, List.foldl_cons]
    simp only [gbpStep]
    by_cases hc : 2 ≤ ((structures.drop (i * groupSize)).take
        (min (i * groupSize + groupSize + 1) structures.length - i * groupSize)).length
    · rw [if_pos hc, if_pos hc]
      apply ih
      simp [h, groupShape]
    · rw [if_neg hc, if_neg hc]
      exact ih _ _ _ h

/-- C9 (amended): the position-based fallback of `analyzeSimilarity` is
reproducible in everything except the synthetic `similarityScore`, which is
`0.75 + 0.2 * Math.random()`: for any two random streams the group labels,
member lists and feature strings agree, and the results agree completely
exactly when the streams do. -/
theorem C9_position_grouping_reproducible (r1 r2 : ℕ → ℝ)
    (structures : List MusicStructure) (h : 4 ≤ structures.length) :
    ((analyzeSimilarity r1 none structures).map groupShape =
      (analyzeSimilarity r2 none structures).map groupShape) ∧
    (r1 = r2 → analyzeSimilarity r1 none structures = analyzeSimilarity r2 none structures) := by
  constructor
  · have hlt : ¬ structures.length < 4 := not_lt.2 h
    unfold analyzeSimilarity
    rw [if_neg hlt, if_neg hlt]
    unfold groupByPosition
    exact gbp_fold_shape r1 r2 structures (structures.length / 3) _ [] [] 0 rfl
  · intro he
    rw [he]

/-- Witness for C9 on the concrete 4-structure list with two different
random streams. -/
theorem C9_position_grouping_reproducible_witness :
    (analyzeSimilarity (fun _ => 0) none structsC5).map groupShape =
      (analyzeSimilarity (fun _ => 1) none structsC5).map groupShape :=
  (C9_position_grouping_reproducible (fun _ => 0) (fun _ => 1) structsC5 (by decide)).1

theorem groupByPosition_structsC5 (rand : ℕ → ℝ) :
    groupByPosition rand structsC5 =
      [{ groupId := "A"
         structureIds := ["s1", "s2"]
         similarityScore := 0.75 + rand 0 * 0.2
         commonFeatures := ["similar melodic contour", "parallel rhythmic pattern"] },
       { groupId := "B"
         structureIds := ["s2", "s3"]
         similarityScore := 0.75 + rand 1 * 0.2
         commonFeatures := ["similar melodic contour", "parallel rhythmic pattern"] }] := by
  have hiters : ((List.range 3).filter
      (fun i : ℕ => decide ((i : ℚ) < (structsC5.length : ℚ) / 2))) = [0, 1] := by
    simp only [show structsC5.length = 4 from rfl,
      show List.range 3 = [0, 1, 2] from rfl, List.filter_cons, List.filter_nil]
    norm_num
  simp only [groupByPosition]
  rw [hiters]
  simp only [List.foldl_cons, List.foldl_nil, gbpStep]
  norm_num [structsC5, groupLabels]

/-- Counterexample to C9 as stated: with the same structures and service
state but different `Math.random()` outcomes, the two returned group lists
differ (their synthetic similarity scores are 0.75 and 0.95). -/
theorem C9_randomness_counterexample :
    analyzeSimilarity (fun _ => 0) none structsC5 ≠
      analyzeSimilarity (fun _ => 1) none structsC5 := by
  have e1 : analyzeSimilarity (fun _ => (0 : ℝ)) none structsC5 =
      groupByPosition (fun _ => (0 : ℝ)) structsC5 := rfl
  have e2 : analyzeSimilarity (fun _ => (1 : ℝ)) none structsC5 =
      groupByPosition (fun _ => (1 : ℝ)) structsC5 := rfl
  rw [e1, e2, groupByPosition_structsC5, groupByPosition_structsC5]
  intro h
  have hs := congrArg (fun l => (List.map (fun g => g.similarityScore) l)) h
  simp only [List.map_cons, List.map_nil, List.cons.injEq] at hs
  have := hs.1
  norm_num at this

/-- C10: pitch handling is total at the public interface — strings that do
not match the pitch pattern map to MIDI 60, a missing octave defaults to
octave 4 (note + 48, adjusted by the accidental), contour detection always
returns one of its four labels, brightness stays clamped in [0, 1] for every
structure, and the structure description is always a non-empty sentence. -/
theorem C10_pitch_total (s : String) (ps : List String) (st : MusicStructure)
    (md : MusicXMLData) :
    (pitchMatch s = none → pitchToNumber s = 60) ∧
    (∀ n a, pitchMatch s = some (n, a, none) →
      pitchToNumber s = noteMapFn n + 48 +
        (if a = some '#' then 1 else 0) - (if a = some 'b' then 1 else 0)) ∧
    detectContour ps ∈ ["stable", "ascending", "descending", "wave"] ∧
    (0 ≤ (extractStructureFeatures st).2.1 ∧ (extractStructureFeatures st).2.1 ≤ 1) ∧
    0 < (generateStructureDescription st md).length := by
  refine ⟨?_, ?_, ?_, ?_, ?_⟩
  · intro h
    unfold pitchToNumber
    rw [h]
  · intro n a h
    unfold pitchToNumber
    rw [h]
    show noteMapFn n + ((4 : ℕ) : ℤ) * 12 + _ - _ = _
    push_cast
    ring_nf
  · simp only [detectContour]
    split
    · simp
    · split
      · simp
      · split
        · simp
        · simp
  · simp only [extractStructureFeatures]
    constructor
    · exact le_min (by norm_num) (le_max_left _ _)
    · exact min_le_left _ _
  · simp only [generateStructureDescription]
    have h28 : 0 < ("Musical phrase from measure " : String).length := by decide
    simp only [String.length_append]
    omega

/-- Witness for C10: a malformed pitch maps to 60, and pitches without an
octave default to octave 4. -/
theorem C10_pitch_total_witness :
    pitchToNumber "H9" = 60 ∧ pitchToNumber "C" = 48 ∧ pitchToNumber "Db" = 49 := by
  refine ⟨(C10_pitch_total "H9" [] st0 md0).1 rfl, ?_, ?_⟩
  · have h := (C10_pitch_total "C" [] st0 md0).2.1 'C' none rfl
    rw [h]
    decide
  · have h := (C10_pitch_total "Db" [] st0 md0).2.1 'D' (some 'b') rfl
    rw [h]
    decide

end IMM
